import Mathlib

set_option maxRecDepth 10000

/-!
Verification of the grid-clash sync protocol implementation.

This file gives a shallow embedding, in Lean, of the core data model and
operations of the repository: the wire codec (src/protocol.py), the
server's claim handling, join handling, per-peer SR-ARQ sender and ACK
handling (src/server.py), and the client's SR-ARQ sender, receiver,
ACK handling and RTT estimation (src/client.py).  Byte strings are
modelled as lists of naturals below 256, Python dictionaries as
association lists that preserve insertion order, Python floats as
rationals, and Python exceptions as Except / Option results.
-/

namespace GridClash

/-! ## Byte-level helpers (struct.pack / struct.unpack big-endian fields) -/

/-- Big-endian encoding of a natural number into `n` bytes
(the value is reduced modulo 2^(8n), matching a field of that width). -/
def toBytesBE : Nat → Nat → List Nat
  | 0, _ => []
  | n + 1, v => toBytesBE n (v / 256) ++ [v % 256]

/-- Big-endian decoding of a list of bytes into a natural number. -/
def fromBytesBE (l : List Nat) : Nat :=
  l.foldl (fun a b => a * 256 + b) 0

theorem toBytesBE_length (n v : Nat) : (toBytesBE n v).length = n := by
  induction n generalizing v with
  | zero => rfl
  | succ n ih => simp [toBytesBE, ih]

theorem fromBytesBE_append_singleton (l : List Nat) (b : Nat) :
    fromBytesBE (l ++ [b]) = fromBytesBE l * 256 + b := by
  simp [fromBytesBE, List.foldl_append]

theorem fromBytesBE_toBytesBE (n v : Nat) :
    fromBytesBE (toBytesBE n v) = v % 256 ^ n := by
  induction n generalizing v with
  | zero => simp [toBytesBE, fromBytesBE, Nat.mod_one]
  | succ n ih =>
    rw [toBytesBE, fromBytesBE_append_singleton, ih, pow_succ', Nat.mod_mul]
    ring

/-! ## 16-bit Internet checksum (src/protocol.py, compute_checksum) -/

/-- Group a (padded, even-length) byte list into big-endian 16-bit words,
as struct.unpack of consecutive unsigned shorts does. -/
def toWords : List Nat → List Nat
  | a :: b :: rest => (a * 256 + b) :: toWords rest
  | _ => []

/-- RFC 1071 16-bit Internet checksum, from compute_checksum in
src/protocol.py: pad to even length, sum the 16-bit words, fold the
carries twice, and return the low 16 bits of the complement
(Python ~s & 0xffff equals 65535 - s % 65536 for nonnegative s). -/
def compute_checksum (data : List Nat) : Nat :=
  let padded := if data.length % 2 = 1 then data ++ [0] else data
  let s0 := (toWords padded).sum
  let s1 := (s0 / 65536) + (s0 % 65536)
  let s2 := s1 + (s1 / 65536)
  65535 - s2 % 65536

theorem compute_checksum_lt (data : List Nat) :
    compute_checksum data < 65536 := by
  simp only [compute_checksum]
  omega

/-! ## Header packing (HEADER_FORMAT "!4s B B H H I I Q H") -/

/-- The 4-byte protocol tag b'GSSP'. -/
def PROTOCOL_ID : List Nat := [71, 83, 83, 80]

/-- The protocol version constant. -/
def VERSION : Nat := 1

/-- struct.pack of the 28-byte header: protocol id (4 bytes), version (1),
msg_type (1), length (2), snapshot_id (2), seq_num (4), ack_num (4),
timestamp (8), checksum (2), all big-endian. -/
def packHeader (pid : List Nat) (version msg_type length snapshot_id seq_num ack_num timestamp checksum : Nat) : List Nat :=
  pid ++ ([version % 256] ++ ([msg_type % 256] ++ (toBytesBE 2 length ++
    (toBytesBE 2 snapshot_id ++ (toBytesBE 4 seq_num ++ (toBytesBE 4 ack_num ++
    (toBytesBE 8 timestamp ++ toBytesBE 2 checksum)))))))

theorem packHeader_length (pid : List Nat) (h : pid.length = 4)
    (v m l sn sq ak ts ck : Nat) :
    (packHeader pid v m l sn sq ak ts ck).length = 28 := by
  simp [packHeader, toBytesBE_length, h]

/-- create_packet from src/protocol.py, with the wall-clock timestamp made
an explicit argument: pack the header with a zero checksum, compute the
checksum of header plus payload, then repack with the real checksum. -/
def create_packet (msg_type seq_num : Nat) (payload : List Nat)
    (snapshot_id ack_num timestamp : Nat) : List Nat :=
  let length := payload.length
  let header_no_checksum :=
    packHeader PROTOCOL_ID VERSION msg_type length snapshot_id seq_num ack_num timestamp 0
  let checksum := compute_checksum (header_no_checksum ++ payload)
  packHeader PROTOCOL_ID VERSION msg_type length snapshot_id seq_num ack_num timestamp checksum
    ++ payload

/-! ## Strict UTF-8 decoding (bytes.decode() in parse_packet) -/

/-- Fuel-driven strict UTF-8 decoder: returns the decoded code points, or
none where Python bytes.decode() would raise UnicodeDecodeError (stray
continuation bytes, overlong forms, surrogates, values above 0x10FFFF,
truncated sequences).  Fuel equal to the list length always suffices
since every step consumes at least one byte. -/
def utf8DecodeAux : Nat → List Nat → Option (List Nat)
  | 0, [] => some []
  | 0, _ :: _ => none
  | _ + 1, [] => some []
  | fuel + 1, b :: rest =>
    if b < 128 then
      (utf8DecodeAux fuel rest).map (fun cs => b :: cs)
    else if b < 194 then none
    else if b < 224 then
      match rest with
      | b1 :: l1 =>
        if 128 ≤ b1 ∧ b1 < 192 then
          (utf8DecodeAux fuel l1).map (fun cs => ((b - 192) * 64 + (b1 - 128)) :: cs)
        else none
      | [] => none
    else if b < 240 then
      match rest with
      | b1 :: b2 :: l2 =>
        let lo := if b = 224 then 160 else 128
        let hi := if b = 237 then 160 else 192
        if (lo ≤ b1 ∧ b1 < hi) ∧ (128 ≤ b2 ∧ b2 < 192) then
          (utf8DecodeAux fuel l2).map
            (fun cs => ((b - 224) * 4096 + (b1 - 128) * 64 + (b2 - 128)) :: cs)
        else none
      | _ => none
    else if b < 245 then
      match rest with
      | b1 :: b2 :: b3 :: l3 =>
        let lo := if b = 240 then 144 else 128
        let hi := if b = 244 then 144 else 192
        if (lo ≤ b1 ∧ b1 < hi) ∧ ((128 ≤ b2 ∧ b2 < 192) ∧ (128 ≤ b3 ∧ b3 < 192)) then
          (utf8DecodeAux fuel l3).map
            (fun cs => ((b - 240) * 262144 + (b1 - 128) * 4096 + (b2 - 128) * 64 + (b3 - 128)) :: cs)
        else none
      | _ => none
    else none

/-- Strict UTF-8 decode of a byte list, as bytes.decode() does. -/
def utf8Decode (l : List Nat) : Option (List Nat) :=
  utf8DecodeAux l.length l

/-! ## Packet parsing (parse_packet in src/protocol.py) -/

/-- The parsed header dictionary.  The protocol tag is stored as the
UTF-8 code points produced by protocol_id.decode(). -/
structure Header where
  protocol_id : List Nat
  version : Nat
  msg_type : Nat
  length : Nat
  snapshot_id : Nat
  seq_num : Nat
  ack_num : Nat
  timestamp : Nat
  received_checksum : Nat
  deriving DecidableEq, Repr

/-- parse_packet from src/protocol.py.  Inputs shorter than the 28-byte
header yield (none, none, false).  Otherwise the header fields are
unpacked at their fixed offsets, the checksum is recomputed over the
header (with a zeroed checksum field) plus payload and compared with the
received one, and finally the header dictionary is built; building it
decodes the protocol-id bytes with bytes.decode(), which raises
UnicodeDecodeError on non-UTF-8 bytes — modelled as Except.error. -/
def parse_packet (data : List Nat) :
    Except Unit (Option Header × Option (List Nat) × Bool) :=
  if data.length < 28 then .ok (none, none, false)
  else
    let pid := data.take 4
    let version := fromBytesBE ((data.drop 4).take 1)
    let msg_type := fromBytesBE ((data.drop 5).take 1)
    let length := fromBytesBE ((data.drop 6).take 2)
    let snapshot_id := fromBytesBE ((data.drop 8).take 2)
    let seq_num := fromBytesBE ((data.drop 10).take 4)
    let ack_num := fromBytesBE ((data.drop 14).take 4)
    let timestamp := fromBytesBE ((data.drop 18).take 8)
    let received_checksum := fromBytesBE ((data.drop 26).take 2)
    let header_no_checksum :=
      packHeader pid version msg_type length snapshot_id seq_num ack_num timestamp 0
    let payload := data.drop 28
    let calculated_checksum := compute_checksum (header_no_checksum ++ payload)
    let valid := received_checksum == calculated_checksum
    match utf8Decode pid with
    | some cps =>
        .ok (some ⟨cps, version, msg_type, length, snapshot_id, seq_num, ack_num,
                   timestamp, received_checksum⟩, some payload, valid)
    | none => .error ()

theorem utf8Decode_protocol_id : utf8Decode PROTOCOL_ID = some [71, 83, 83, 80] := by decide

theorem utf8Decode_ff_bytes : utf8Decode (List.replicate 4 255) = none := by decide

theorem fromBytesBE_singleton (b : Nat) : fromBytesBE [b] = b := by
  simp [fromBytesBE]

/-- Slicing a packed header (followed by arbitrary trailing bytes) at the
fixed field offsets recovers exactly the encoded field bytes. -/
theorem packHeader_slices (pid : List Nat) (hpid : pid.length = 4)
    (v m l sn sq ak ts ck : Nat) (rest : List Nat) :
    (packHeader pid v m l sn sq ak ts ck ++ rest).take 4 = pid ∧
    ((packHeader pid v m l sn sq ak ts ck ++ rest).drop 4).take 1 = [v % 256] ∧
    ((packHeader pid v m l sn sq ak ts ck ++ rest).drop 5).take 1 = [m % 256] ∧
    ((packHeader pid v m l sn sq ak ts ck ++ rest).drop 6).take 2 = toBytesBE 2 l ∧
    ((packHeader pid v m l sn sq ak ts ck ++ rest).drop 8).take 2 = toBytesBE 2 sn ∧
    ((packHeader pid v m l sn sq ak ts ck ++ rest).drop 10).take 4 = toBytesBE 4 sq ∧
    ((packHeader pid v m l sn sq ak ts ck ++ rest).drop 14).take 4 = toBytesBE 4 ak ∧
    ((packHeader pid v m l sn sq ak ts ck ++ rest).drop 18).take 8 = toBytesBE 8 ts ∧
    ((packHeader pid v m l sn sq ak ts ck ++ rest).drop 26).take 2 = toBytesBE 2 ck ∧
    (packHeader pid v m l sn sq ak ts ck ++ rest).drop 28 = rest := by
  have hd : packHeader pid v m l sn sq ak ts ck ++ rest =
      pid ++ ([v % 256] ++ ([m % 256] ++ (toBytesBE 2 l ++ (toBytesBE 2 sn ++
        (toBytesBE 4 sq ++ (toBytesBE 4 ak ++ (toBytesBE 8 ts ++
        (toBytesBE 2 ck ++ rest)))))))) := by
    simp [packHeader, List.append_assoc]
  have h4 : (packHeader pid v m l sn sq ak ts ck ++ rest).drop 4 =
      [v % 256] ++ ([m % 256] ++ (toBytesBE 2 l ++ (toBytesBE 2 sn ++
        (toBytesBE 4 sq ++ (toBytesBE 4 ak ++ (toBytesBE 8 ts ++
        (toBytesBE 2 ck ++ rest))))))) := by
    rw [hd]; exact List.drop_left' hpid
  have h5 : (packHeader pid v m l sn sq ak ts ck ++ rest).drop 5 =
      [m % 256] ++ (toBytesBE 2 l ++ (toBytesBE 2 sn ++
        (toBytesBE 4 sq ++ (toBytesBE 4 ak ++ (toBytesBE 8 ts ++
        (toBytesBE 2 ck ++ rest)))))) := by
    rw [show (5 : Nat) = 1 + 4 from rfl, ← List.drop_drop 1 4, h4]; rfl
  have h6 : (packHeader pid v m l sn sq ak ts ck ++ rest).drop 6 =
      toBytesBE 2 l ++ (toBytesBE 2 sn ++
        (toBytesBE 4 sq ++ (toBytesBE 4 ak ++ (toBytesBE 8 ts ++
        (toBytesBE 2 ck ++ rest))))) := by
    rw [show (6 : Nat) = 1 + 5 from rfl, ← List.drop_drop 1 5, h5]; rfl
  have h8 : (packHeader pid v m l sn sq ak ts ck ++ rest).drop 8 =
      toBytesBE 2 sn ++ (toBytesBE 4 sq ++ (toBytesBE 4 ak ++
        (toBytesBE 8 ts ++ (toBytesBE 2 ck ++ rest)))) := by
    rw [show (8 : Nat) = 2 + 6 from rfl, ← List.drop_drop 2 6, h6]
    exact List.drop_left' (toBytesBE_length 2 l)
  have h10 : (packHeader pid v m l sn sq ak ts ck ++ rest).drop 10 =
      toBytesBE 4 sq ++ (toBytesBE 4 ak ++ (toBytesBE 8 ts ++
        (toBytesBE 2 ck ++ rest))) := by
    rw [show (10 : Nat) = 2 + 8 from rfl, ← List.drop_drop 2 8, h8]
    exact List.drop_left' (toBytesBE_length 2 sn)
  have h14 : (packHeader pid v m l sn sq ak ts ck ++ rest).drop 14 =
      toBytesBE 4 ak ++ (toBytesBE 8 ts ++ (toBytesBE 2 ck ++ rest)) := by
    rw [show (14 : Nat) = 4 + 10 from rfl, ← List.drop_drop 4 10, h10]
    exact List.drop_left' (toBytesBE_length 4 sq)
  have h18 : (packHeader pid v m l sn sq ak ts ck ++ rest).drop 18 =
      toBytesBE 8 ts ++ (toBytesBE 2 ck ++ rest) := by
    rw [show (18 : Nat) = 4 + 14 from rfl, ← List.drop_drop 4 14, h14]
    exact List.drop_left' (toBytesBE_length 4 ak)
  have h26 : (packHeader pid v m l sn sq ak ts ck ++ rest).drop 26 =
      toBytesBE 2 ck ++ rest := by
    rw [show (26 : Nat) = 8 + 18 from rfl, ← List.drop_drop 8 18, h18]
    exact List.drop_left' (toBytesBE_length 8 ts)
  have h28 : (packHeader pid v m l sn sq ak ts ck ++ rest).drop 28 = rest := by
    rw [show (28 : Nat) = 2 + 26 from rfl, ← List.drop_drop 2 26, h26]
    exact List.drop_left' (toBytesBE_length 2 ck)
  refine ⟨?_, ?_, ?_, ?_, ?_, ?_, ?_, ?_, ?_, h28⟩
  · rw [hd]; exact List.take_left' hpid
  · rw [h4]; rfl
  · rw [h5]; rfl
  · rw [h6]; exact List.take_left' (toBytesBE_length 2 l)
  · rw [h8]; exact List.take_left' (toBytesBE_length 2 sn)
  · rw [h10]; exact List.take_left' (toBytesBE_length 4 sq)
  · rw [h14]; exact List.take_left' (toBytesBE_length 4 ak)
  · rw [h18]; exact List.take_left' (toBytesBE_length 8 ts)
  · rw [h26]; exact List.take_left' (toBytesBE_length 2 ck)

/-- Parsing any packet built from an in-range header and arbitrary payload
recovers every field, the original payload, and compares the stored
checksum against the recomputed one. -/
theorem parse_packet_packHeader (v m l sn sq ak ts ck : Nat) (payload : List Nat)
    (hv : v < 256) (hm : m < 256) (hl : l < 2 ^ 16) (hsn : sn < 2 ^ 16)
    (hsq : sq < 2 ^ 32) (hak : ak < 2 ^ 32) (hts : ts < 2 ^ 64) (hck : ck < 2 ^ 16) :
    parse_packet (packHeader PROTOCOL_ID v m l sn sq ak ts ck ++ payload) =
      .ok (some ⟨[71, 83, 83, 80], v, m, l, sn, sq, ak, ts, ck⟩, some payload,
           ck == compute_checksum (packHeader PROTOCOL_ID v m l sn sq ak ts 0 ++ payload)) := by
  have hpid : PROTOCOL_ID.length = 4 := rfl
  obtain ⟨s0, s4, s5, s6, s8, s10, s14, s18, s26, s28⟩ :=
    packHeader_slices PROTOCOL_ID hpid v m l sn sq ak ts ck payload
  have hlen : ¬ (packHeader PROTOCOL_ID v m l sn sq ak ts ck ++ payload).length < 28 := by
    simp [packHeader_length PROTOCOL_ID hpid]
  rw [parse_packet, if_neg hlen]
  rw [s0, s4, s5, s6, s8, s10, s14, s18, s26, s28]
  rw [fromBytesBE_singleton, fromBytesBE_singleton,
      fromBytesBE_toBytesBE, fromBytesBE_toBytesBE, fromBytesBE_toBytesBE,
      fromBytesBE_toBytesBE, fromBytesBE_toBytesBE, fromBytesBE_toBytesBE]
  rw [Nat.mod_eq_of_lt hv, Nat.mod_eq_of_lt hm]
  rw [show (256 : Nat) ^ 2 = 2 ^ 16 from rfl, show (256 : Nat) ^ 4 = 2 ^ 32 from rfl,
      show (256 : Nat) ^ 8 = 2 ^ 64 from rfl]
  rw [Nat.mod_eq_of_lt hl, Nat.mod_eq_of_lt hsn, Nat.mod_eq_of_lt hsq,
      Nat.mod_eq_of_lt hak, Nat.mod_eq_of_lt hts, Nat.mod_eq_of_lt hck]
  rfl

/-- C7: codec round trip — for every valid field combination (message
type, sequence number, acknowledgment number, snapshot id within their
header field widths, payload shorter than 2^16 bytes),
parse_packet (create_packet type seq payload snapshotId ackNum) returns a
header whose protocol tag, version, msg_type, length, snapshot_id,
seq_num and ack_num equal the encoded values, returns the payload
byte-for-byte, and reports checksumValid = true. -/
theorem codec_round_trip (msg_type seq_num : Nat) (payload : List Nat)
    (snapshot_id ack_num timestamp : Nat)
    (hm : msg_type < 2 ^ 8) (hsq : seq_num < 2 ^ 32) (hsn : snapshot_id < 2 ^ 16)
    (hak : ack_num < 2 ^ 32) (hts : timestamp < 2 ^ 64)
    (hlen : payload.length < 2 ^ 16) :
    parse_packet (create_packet msg_type seq_num payload snapshot_id ack_num timestamp) =
      .ok (some ⟨[71, 83, 83, 80], 1, msg_type, payload.length, snapshot_id,
             seq_num, ack_num, timestamp,
             compute_checksum (packHeader PROTOCOL_ID 1 msg_type payload.length
               snapshot_id seq_num ack_num timestamp 0 ++ payload)⟩,
           some payload, true) := by
  have hck := compute_checksum_lt (packHeader PROTOCOL_ID 1 msg_type payload.length
    snapshot_id seq_num ack_num timestamp 0 ++ payload)
  simp only [create_packet, VERSION]
  rw [parse_packet_packHeader 1 msg_type payload.length snapshot_id seq_num ack_num
      timestamp _ payload (by norm_num) hm hlen hsn hsq hak hts hck]
  simp

theorem codec_round_trip_witness :
    parse_packet (create_packet 2 5 [1, 2, 3] 7 9 1000) =
      .ok (some ⟨[71, 83, 83, 80], 1, 2, 3, 7, 5, 9, 1000,
             compute_checksum (packHeader PROTOCOL_ID 1 2 3 7 5 9 1000 0 ++ [1, 2, 3])⟩,
           some [1, 2, 3], true) :=
  codec_round_trip 2 5 [1, 2, 3] 7 9 1000 (by decide) (by decide) (by decide)
    (by decide) (by decide) (by decide)

/-- C8 (code bug): parse_packet is claimed never to raise, but building
the header dictionary calls protocol_id.decode(), which raises
UnicodeDecodeError when the first four bytes are not valid UTF-8; a
28-byte datagram of 0xff bytes makes parse_packet raise.  Inputs shorter
than the 28-byte header do return (None, None, False) as claimed. -/
theorem parse_packet_raises_on_invalid_utf8 :
    parse_packet (List.replicate 28 255) = .error () ∧
    parse_packet (List.replicate 27 0) = .ok (none, none, false) :=
  ⟨rfl, rfl⟩

/-! ## Grid state and claim handling (src/server.py) -/

/-- Read a grid cell, as Python grid[r][c] for in-range indices. -/
def gridGet (g : List (List Nat)) (r c : Nat) : Nat :=
  (g.getD r []).getD c 0

/-- Write a grid cell, as Python grid[r][c] = v for in-range indices. -/
def gridSet (g : List (List Nat)) (r c v : Nat) : List (List Nat) :=
  g.set r ((g.getD r []).set c v)

/-- The initial 20x20 all-zero grid, [[0] * 20 for _ in range(20)]. -/
def initGrid : List (List Nat) := List.replicate 20 (List.replicate 20 0)

/-- The server's cell-ownership state: grid_state holds the owner of each
cell (0 = unclaimed) and grid_claim_time the stored claim timestamp
(0 initially). -/
structure ClaimState where
  grid_state : List (List Nat)
  grid_claim_time : List (List Nat)
  deriving DecidableEq, Repr

/-- The fresh server state: both matrices all zero. -/
def initClaimState : ClaimState := ⟨initGrid, initGrid⟩

/-- The CLAIM_REQUEST core of GameServer._handle_message, src/server.py
lines 432-472: for a registered player player_id, a claim on (r, c)
carrying header timestamp claim_time updates owner and stored timestamp
when the coordinates are in range and claim_time is strictly greater
than the stored cell timestamp; otherwise the state is unchanged. -/
def handleClaim (s : ClaimState) (player_id r c claim_time : Nat) : ClaimState :=
  if r < 20 ∧ c < 20 then
    if gridGet s.grid_claim_time r c < claim_time then
      ⟨gridSet s.grid_state r c player_id, gridSet s.grid_claim_time r c claim_time⟩
    else s
  else s

theorem getD_set_self {α : Type} (l : List α) (i : Nat) (v d : α) (h : i < l.length) :
    (l.set i v).getD i d = v := by
  simp [List.getD_eq_getElem?_getD, List.getElem?_set_self, h]

theorem getD_replicate {α : Type} (n i : Nat) (a d : α) (h : i < n) :
    (List.replicate n a).getD i d = a := by
  simp [List.getD_eq_getElem?_getD, List.getElem?_replicate, h]

theorem gridGet_initGrid (r c : Nat) (hr : r < 20) (hc : c < 20) :
    gridGet initGrid r c = 0 := by
  rw [gridGet, initGrid, getD_replicate 20 r _ _ hr, getD_replicate 20 c _ _ hc]

theorem gridGet_gridSet (g : List (List Nat)) (r c v : Nat)
    (hr : r < g.length) (hc : c < (g.getD r []).length) :
    gridGet (gridSet g r c v) r c = v := by
  rw [gridGet, gridSet, getD_set_self _ _ _ _ hr,
      getD_set_self _ _ _ _ hc]

theorem initGrid_row_length (r : Nat) (hr : r < 20) :
    (initGrid.getD r []).length = 20 := by
  rw [initGrid, getD_replicate 20 r _ _ hr, List.length_replicate]

theorem gridGet_gridSet_init (r c v : Nat) (hr : r < 20) (hc : c < 20) :
    gridGet (gridSet initGrid r c v) r c = v := by
  refine gridGet_gridSet initGrid r c v ?_ ?_
  · simpa [initGrid] using hr
  · rw [initGrid_row_length r hr]; exact hc

theorem gridGet_gridSet_twice (r c v w : Nat) (hr : r < 20) (hc : c < 20) :
    gridGet (gridSet (gridSet initGrid r c v) r c w) r c = w := by
  refine gridGet_gridSet _ r c w ?_ ?_
  · simpa [gridSet, initGrid] using hr
  · rw [gridSet, getD_set_self]
    · rw [List.length_set, initGrid_row_length r hr]; exact hc
    · simpa [initGrid] using hr

/-- C1: a CLAIM_REQUEST from a registered player updates the cell's owner
and stored timestamp exactly when the coordinates are in range and the
claim timestamp is strictly greater than the stored one (initially 0);
otherwise the grid is unchanged, out-of-range claims never modify the
grid, and for two claims on the same fresh cell with timestamps
t1 < t2 the final owner is the t2 claimant in either processing order. -/
theorem claim_request_resolution (s : ClaimState) (p r c t : Nat) :
    (r < 20 → c < 20 →
      handleClaim s p r c t =
        if gridGet s.grid_claim_time r c < t then
          ⟨gridSet s.grid_state r c p, gridSet s.grid_claim_time r c t⟩
        else s) ∧
    (¬ (r < 20 ∧ c < 20) → handleClaim s p r c t = s) ∧
    (∀ p1 p2 t1 t2 : Nat, r < 20 → c < 20 → t1 < t2 →
      gridGet (handleClaim (handleClaim initClaimState p1 r c t1) p2 r c t2).grid_state r c = p2 ∧
      gridGet (handleClaim (handleClaim initClaimState p2 r c t2) p1 r c t1).grid_state r c = p2) := by
  refine ⟨fun hr hc => by simp [handleClaim, hr, hc], fun h => by simp [handleClaim, h], ?_⟩
  intro p1 p2 t1 t2 hr hc h12
  have hts0 : gridGet initGrid r c = 0 := gridGet_initGrid r c hr hc
  have ht2 : (0 : Nat) < t2 := by omega
  constructor
  · -- order t1 then t2: the t2 claim always wins in the end
    by_cases h1 : (0 : Nat) < t1
    · have hstep1 : handleClaim initClaimState p1 r c t1 =
          ⟨gridSet initGrid r c p1, gridSet initGrid r c t1⟩ := by
        simp [handleClaim, hr, hc, initClaimState, hts0, h1]
      rw [hstep1]
      have hts1 : gridGet (gridSet initGrid r c t1) r c = t1 :=
        gridGet_gridSet_init r c t1 hr hc
      have hstep2 : handleClaim ⟨gridSet initGrid r c p1, gridSet initGrid r c t1⟩ p2 r c t2 =
          ⟨gridSet (gridSet initGrid r c p1) r c p2,
           gridSet (gridSet initGrid r c t1) r c t2⟩ := by
        simp [handleClaim, hr, hc, hts1, h12]
      rw [hstep2]
      exact gridGet_gridSet_twice r c p1 p2 hr hc
    · have ht1 : t1 = 0 := by omega
      have hstep1 : handleClaim initClaimState p1 r c t1 = initClaimState := by
        simp [handleClaim, hr, hc, initClaimState, hts0, ht1]
      rw [hstep1]
      have hstep2 : handleClaim initClaimState p2 r c t2 =
          ⟨gridSet initGrid r c p2, gridSet initGrid r c t2⟩ := by
        simp [handleClaim, hr, hc, initClaimState, hts0, ht2]
      rw [hstep2]
      exact gridGet_gridSet_init r c p2 hr hc
  · -- order t2 then t1: the late t1 claim is rejected
    have hstep1 : handleClaim initClaimState p2 r c t2 =
        ⟨gridSet initGrid r c p2, gridSet initGrid r c t2⟩ := by
      simp [handleClaim, hr, hc, initClaimState, hts0, ht2]
    rw [hstep1]
    have hts2 : gridGet (gridSet initGrid r c t2) r c = t2 :=
      gridGet_gridSet_init r c t2 hr hc
    have hstep2 : handleClaim ⟨gridSet initGrid r c p2, gridSet initGrid r c t2⟩ p1 r c t1 =
        ⟨gridSet initGrid r c p2, gridSet initGrid r c t2⟩ := by
      have : ¬ gridGet (gridSet initGrid r c t2) r c < t1 := by omega
      simp [handleClaim, hr, hc, this]
    rw [hstep2]
    exact gridGet_gridSet_init r c p2 hr hc

theorem claim_request_resolution_witness :
    (handleClaim initClaimState 1 2 3 5 =
      if gridGet initClaimState.grid_claim_time 2 3 < 5 then
        ⟨gridSet initClaimState.grid_state 2 3 1, gridSet initClaimState.grid_claim_time 2 3 5⟩
      else initClaimState) ∧
    handleClaim initClaimState 1 25 3 5 = initClaimState ∧
    gridGet (handleClaim (handleClaim initClaimState 1 2 3 4) 2 2 3 9).grid_state 2 3 = 2 ∧
    gridGet (handleClaim (handleClaim initClaimState 2 2 3 9) 1 2 3 4).grid_state 2 3 = 2 := by
  refine ⟨(claim_request_resolution initClaimState 1 2 3 5).1 (by decide) (by decide),
          (claim_request_resolution initClaimState 1 25 3 5).2.1 (by decide),
          ?_, ?_⟩
  · exact ((claim_request_resolution initClaimState 1 2 3 0).2.2 1 2 4 9
      (by decide) (by decide) (by decide)).1
  · exact ((claim_request_resolution initClaimState 1 2 3 0).2.2 1 2 4 9
      (by decide) (by decide) (by decide)).2

/-! ## End-of-game scores and leaderboard serialization
(calculate_scores_from_grid in src/server.py, pack_leaderboard_data in
src/protocol.py) -/

/-- One tally step of the Python dict update
scores[cell] = scores.get(cell, 0) + 1 on an insertion-ordered dict:
bump the existing entry in place, or append a fresh one. -/
def bump : List (Nat × Nat) → Nat → List (Nat × Nat)
  | [], p => [(p, 1)]
  | (q, n) :: rest, p => if q = p then (q, n + 1) :: rest else (q, n) :: bump rest p

/-- Stable insertion for descending-by-score order: the new entry goes
after entries with strictly greater score and before the rest, so equal
scores keep their original relative order, exactly as the stable Python
sorted(..., key=score, reverse=True) does. -/
def insertDescByScore (x : Nat × Nat) : List (Nat × Nat) → List (Nat × Nat)
  | [] => [x]
  | y :: ys => if x.2 < y.2 then y :: insertDescByScore x ys else x :: y :: ys

/-- Stable sort, descending by score. -/
def sortDescByScore : List (Nat × Nat) → List (Nat × Nat)
  | [] => []
  | x :: xs => insertDescByScore x (sortDescByScore xs)

/-- calculate_scores_from_grid from src/server.py: tally the nonzero
cells in row-major order into an insertion-ordered dict, then
stable-sort the (player, count) items descending by count.  The Python
function returns a list of 2-tuples; tuples are modelled as lists of
naturals so their runtime arity is visible. -/
def calculate_scores_from_grid (grid : List (List Nat)) : List (List Nat) :=
  let counts := grid.foldl
    (fun acc row => row.foldl (fun a cell => if cell ≠ 0 then bump a cell else a) acc) []
  (sortDescByScore counts).map (fun pc => [pc.1, pc.2])

/-- pack_leaderboard_data from src/protocol.py: a count byte followed,
per entry, by player id (1 byte), score (2 bytes) and rank (1 byte).
Each entry is destructured as a 3-tuple (pid, score, rank); an entry of
any other arity raises ValueError, modelled as Except.error. -/
def pack_leaderboard_data (leaderboard : List (List Nat)) : Except Unit (List Nat) :=
  leaderboard.foldlM
    (fun acc entry =>
      match entry with
      | [pid, score, rank] =>
          Except.ok (acc ++ ([pid % 256] ++ (toBytesBE 2 score ++ [rank % 256])))
      | _ => Except.error ())
    [leaderboard.length % 256]

/-- C9 (code bug): at the transition to Ended the server computes
final_scores as (player id, count) 2-tuples, but pack_leaderboard_data
destructures each entry as a 3-tuple (pid, score, rank), so serializing
any nonempty leaderboard raises ValueError and no leaderboard bytes are
produced; only an empty leaderboard serializes (to its count byte).
Moreover equal counts are ordered by first appearance in the row-major
grid scan (stable sort), not by player id ascending: with grid[0][0] = 2
and grid[0][1] = 1 the computed order is player 2 before player 1. -/
theorem leaderboard_pack_mismatch :
    calculate_scores_from_grid (gridSet initGrid 0 0 1) = [[1, 1]] ∧
    pack_leaderboard_data (calculate_scores_from_grid (gridSet initGrid 0 0 1)) =
      .error () ∧
    calculate_scores_from_grid (gridSet (gridSet initGrid 0 0 2) 0 1 1) =
      [[2, 1], [1, 1]] ∧
    pack_leaderboard_data [] = .ok [0] :=
  ⟨rfl, rfl, rfl, rfl⟩

/-! ## Join handling and game start (src/server.py, _handle_message
JOIN_REQ branch, _addr_to_pid, _start_game) -/

/-- The minimum player threshold declared by GameServer.__init__
(self.min_players = 2). -/
def min_players : Nat := 2

/-- The player registry and session phase relevant to joining:
clients and waiting_room_players are insertion-ordered maps
player id -> address, and game_active is the phase flag. -/
structure JoinState where
  clients : List (Nat × Nat)
  waiting_room_players : List (Nat × Nat)
  game_active : Bool
  deriving DecidableEq, Repr

/-- The freshly started server: no players, game inactive. -/
def initJoinState : JoinState := ⟨[], [], false⟩

/-- _addr_to_pid from src/server.py: scan active clients then the
waiting room for the first player registered at this address. -/
def addrToPid (s : JoinState) (addr : Nat) : Option Nat :=
  match s.clients.find? (fun pc => pc.2 == addr) with
  | some pc => some pc.1
  | none => (s.waiting_room_players.find? (fun pc => pc.2 == addr)).map Prod.fst

/-- Whether a candidate player id is taken, as the Python membership test
new_pid in self.waiting_room_players or new_pid in self.clients. -/
def pidUsed (s : JoinState) (p : Nat) : Bool :=
  s.waiting_room_players.any (fun pc => pc.1 == p) || s.clients.any (fun pc => pc.1 == p)

/-- The id-allocation loop new_pid = 1; while used: new_pid += 1, run on
fuel; fuel one more than the number of registered players always
suffices, since among that many candidates one must be free. -/
def freshPidAux (s : JoinState) : Nat → Nat → Nat
  | 0, p => p
  | fuel + 1, p => if pidUsed s p then freshPidAux s fuel (p + 1) else p

/-- The smallest unused positive player id, as allocated on join. -/
def freshPid (s : JoinState) : Nat :=
  freshPidAux s (s.clients.length + s.waiting_room_players.length + 1) 1

/-- _start_game from src/server.py: set game_active, move every waiting
player into the active clients map, and clear the waiting room
(GAME_START and the initial snapshot are then broadcast). -/
def startGame (s : JoinState) : JoinState :=
  ⟨s.clients ++ s.waiting_room_players, [], true⟩

/-- The JOIN_REQ branch of GameServer._handle_message, src/server.py
lines 366-418: an address that already has a player id only gets its
JOIN_RESPONSE resent and the registry is untouched; otherwise the
smallest unused id is allocated into the waiting room, then — if the
game is active and fewer than 4 clients are playing — the newcomer is
moved straight into the active game, and if the game is not active the
game is started as soon as the waiting room holds at least one player. -/
def handleJoinReq (s : JoinState) (addr : Nat) : JoinState :=
  match addrToPid s addr with
  | some _ => s
  | none =>
    let new_pid := freshPid s
    let s1 : JoinState :=
      ⟨s.clients, s.waiting_room_players ++ [(new_pid, addr)], s.game_active⟩
    if s1.game_active then
      if s1.clients.length < 4 then
        ⟨s1.clients ++ [(new_pid, addr)],
         s1.waiting_room_players.filter (fun pc => ¬ pc.1 == new_pid),
         s1.game_active⟩
      else s1
    else
      if 1 ≤ s1.waiting_room_players.length then startGame s1 else s1

/-- C3 (code bug): a single JOIN_REQUEST arriving at the fresh Waiting
server starts the game at once — the code tests
len(waiting_room_players) >= 1 instead of the declared min_players = 2 —
so the session becomes Active with one joined player, fewer than the
minimum player threshold. -/
theorem single_join_starts_game :
    (handleJoinReq initJoinState 7).game_active = true ∧
    (handleJoinReq initJoinState 7).clients.length = 1 ∧
    (handleJoinReq initJoinState 7).clients.length < min_players :=
  ⟨rfl, rfl, by decide⟩

/-- C10: joining is idempotent per endpoint address — a JOIN_REQUEST
from an address that already has an assigned player id (in the active
set or the waiting room) only resends the JOIN_RESPONSE and leaves the
player registry unchanged. -/
theorem duplicate_join_idempotent (s : JoinState) (addr : Nat)
    (h : (addrToPid s addr).isSome) :
    handleJoinReq s addr = s := by
  rw [handleJoinReq]
  cases hfind : addrToPid s addr with
  | some pid => rfl
  | none => rw [hfind] at h; simp at h

theorem duplicate_join_idempotent_witness :
    handleJoinReq ⟨[(1, 7)], [(2, 9)], true⟩ 9 = ⟨[(1, 7)], [(2, 9)], true⟩ :=
  duplicate_join_idempotent ⟨[(1, 7)], [(2, 9)], true⟩ 9 (by decide)

/-! ## Insertion-ordered dictionaries as association lists -/

/-- Dictionary lookup, dict.get(k) / k in dict. -/
def bufFind {α : Type} (k : Nat) : List (Nat × α) → Option α
  | [] => none
  | (j, v) :: rest => if j = k then some v else bufFind k rest

/-- Dictionary update dict[k] = v: replace in place, or append. -/
def bufInsert {α : Type} (k : Nat) (v : α) : List (Nat × α) → List (Nat × α)
  | [] => [(k, v)]
  | (j, w) :: rest => if j = k then (k, v) :: rest else (j, w) :: bufInsert k v rest

/-- Dictionary deletion del dict[k]. -/
def bufErase {α : Type} (k : Nat) : List (Nat × α) → List (Nat × α)
  | [] => []
  | (j, w) :: rest => if j = k then rest else (j, w) :: bufErase k rest

theorem bufFind_none_iff {α : Type} (k : Nat) (l : List (Nat × α)) :
    bufFind k l = none ↔ k ∉ l.map Prod.fst := by
  induction l with
  | nil => simp [bufFind]
  | cons hd tl ih =>
    obtain ⟨j, v⟩ := hd
    by_cases hj : j = k
    · subst hj; simp [bufFind]
    · have hk : ¬ k = j := fun h => hj h.symm
      simp [bufFind, hj, hk, ih]

theorem bufErase_keys {α : Type} (k : Nat) (l : List (Nat × α)) :
    (bufErase k l).map Prod.fst = (l.map Prod.fst).erase k := by
  induction l with
  | nil => rfl
  | cons hd tl ih =>
    obtain ⟨j, v⟩ := hd
    by_cases hj : j = k <;> simp [bufErase, hj, List.erase_cons, ih]

theorem bufErase_length_lt {α : Type} (k : Nat) (l : List (Nat × α)) (m : α)
    (h : bufFind k l = some m) : (bufErase k l).length < l.length := by
  induction l with
  | nil => simp [bufFind] at h
  | cons hd tl ih =>
    obtain ⟨j, v⟩ := hd
    by_cases hj : j = k
    · simp [bufErase, hj]
    · rw [bufFind, if_neg hj] at h
      simpa [bufErase, hj] using ih h

theorem bufInsert_keys {α : Type} (k : Nat) (v : α) (l : List (Nat × α)) :
    (bufInsert k v l).map Prod.fst =
      if k ∈ l.map Prod.fst then l.map Prod.fst else l.map Prod.fst ++ [k] := by
  induction l with
  | nil => simp [bufInsert]
  | cons hd tl ih =>
    obtain ⟨j, w⟩ := hd
    by_cases hj : j = k
    · simp [bufInsert, hj]
    · have hk : ¬ k = j := fun h => hj h.symm
      by_cases hmem : k ∈ tl.map Prod.fst
      · simp [bufInsert, hj, ih, hk, hmem]
      · simp [bufInsert, hj, ih, hk, hmem]

theorem bufInsert_keys_nodup {α : Type} (k : Nat) (v : α) (l : List (Nat × α))
    (h : (l.map Prod.fst).Nodup) : ((bufInsert k v l).map Prod.fst).Nodup := by
  rw [bufInsert_keys]
  split
  · exact h
  · next hmem => simp [List.nodup_append, h, hmem]

theorem mem_bufInsert_keys {α : Type} (j k : Nat) (v : α) (l : List (Nat × α))
    (h : j ∈ (bufInsert k v l).map Prod.fst) : j = k ∨ j ∈ l.map Prod.fst := by
  rw [bufInsert_keys] at h
  split at h
  · exact Or.inr h
  · rcases List.mem_append.1 h with h | h
    · exact Or.inr h
    · simp at h; exact Or.inl h

/-! ## SR ARQ receiver (src/client.py, _handle_data_packet) -/

/-- The receiver side of the client's SR ARQ: the next expected sequence
number, the out-of-order buffer, and — for specification purposes — the
log of (seq, message) pairs handed to _process_packet, in order. -/
structure RecvState (M : Type) where
  expected_seq : Nat
  receive_buffer : List (Nat × M)
  delivered : List (Nat × M)
  deriving DecidableEq, Repr

/-- The receiver's initial state: expected_seq 0, empty buffer. -/
def initRecvState (M : Type) : RecvState M := ⟨0, [], []⟩

/-- The buffer-draining loop: while expected_seq is present in the
buffer, pop and deliver it, incrementing expected_seq.  Each iteration
removes one entry, so fuel equal to the buffer length always suffices. -/
def drainAux {M : Type} : Nat → Nat → List (Nat × M) → List (Nat × M) →
    Nat × List (Nat × M) × List (Nat × M)
  | 0, exp, buf, out => (exp, buf, out)
  | fuel + 1, exp, buf, out =>
    match bufFind exp buf with
    | some m => drainAux fuel (exp + 1) (bufErase exp buf) (out ++ [(exp, m)])
    | none => (exp, buf, out)

/-- _handle_data_packet from src/client.py lines 329-360 (minus the
transport ACK): deliver and drain when seq == expected_seq, buffer when
seq > expected_seq, ignore duplicates when seq < expected_seq. -/
def handle_data_packet {M : Type} (s : RecvState M) (seq : Nat) (m : M) : RecvState M :=
  if seq = s.expected_seq then
    let r := drainAux s.receive_buffer.length (s.expected_seq + 1)
      s.receive_buffer (s.delivered ++ [(seq, m)])
    ⟨r.1, r.2.1, r.2.2⟩
  else if s.expected_seq < seq then
    ⟨s.expected_seq, bufInsert seq m s.receive_buffer, s.delivered⟩
  else s

/-- Feed a list of arriving data packets through the receiver. -/
def runRecv {M : Type} (ps : List (Nat × M)) (s : RecvState M) : RecvState M :=
  ps.foldl (fun st p => handle_data_packet st p.1 p.2) s

/-- The receiver invariant: the delivered sequence numbers are exactly
0, 1, ..., expected_seq - 1 in order, and the buffer holds only
distinct sequence numbers beyond expected_seq. -/
def RecvInv {M : Type} (s : RecvState M) : Prop :=
  s.delivered.map Prod.fst = List.range s.expected_seq ∧
  (∀ k ∈ s.receive_buffer.map Prod.fst, s.expected_seq < k) ∧
  (s.receive_buffer.map Prod.fst).Nodup

theorem drainAux_spec {M : Type} (fuel : Nat) :
    ∀ (exp : Nat) (buf out : List (Nat × M)),
    buf.length ≤ fuel →
    out.map Prod.fst = List.range exp →
    (∀ k ∈ buf.map Prod.fst, exp ≤ k) →
    (buf.map Prod.fst).Nodup →
    (drainAux fuel exp buf out).2.2.map Prod.fst =
        List.range (drainAux fuel exp buf out).1 ∧
    (∀ k ∈ (drainAux fuel exp buf out).2.1.map Prod.fst,
        (drainAux fuel exp buf out).1 < k) ∧
    ((drainAux fuel exp buf out).2.1.map Prod.fst).Nodup := by
  induction fuel with
  | zero =>
    intro exp buf out hfuel hout hbuf hnd
    have hb : buf = [] := List.length_eq_zero.1 (Nat.le_zero.1 hfuel)
    subst hb
    refine ⟨by simpa [drainAux] using hout, ?_, by simp [drainAux]⟩
    intro k hk
    simp [drainAux] at hk
  | succ fuel ih =>
    intro exp buf out hfuel hout hbuf hnd
    rw [drainAux]
    cases hfind : bufFind exp buf with
    | none =>
      refine ⟨hout, fun k hk => ?_, hnd⟩
      have hne : exp ≠ k := by
        intro h; subst h
        exact (bufFind_none_iff exp buf).1 hfind hk
      exact Nat.lt_of_le_of_ne (hbuf k hk) hne
    | some m =>
      have hlen : (bufErase exp buf).length ≤ fuel := by
        have := bufErase_length_lt exp buf m hfind
        omega
      refine ih (exp + 1) (bufErase exp buf) (out ++ [(exp, m)]) hlen ?_ ?_ ?_
      · simp [hout, List.range_succ]
      · intro k hk
        rw [bufErase_keys] at hk
        have hkk := (List.Nodup.mem_erase_iff hnd).1 hk
        have := hbuf k hkk.2
        omega
      · rw [bufErase_keys]
        exact hnd.erase exp

theorem handle_data_packet_inv {M : Type} (s : RecvState M) (seq : Nat) (m : M)
    (h : RecvInv s) : RecvInv (handle_data_packet s seq m) := by
  obtain ⟨hout, hbuf, hnd⟩ := h
  rw [handle_data_packet]
  by_cases h0 : seq = s.expected_seq
  · rw [if_pos h0]
    exact drainAux_spec s.receive_buffer.length (s.expected_seq + 1)
      s.receive_buffer (s.delivered ++ [(seq, m)]) (le_refl _)
      (by simp [hout, List.range_succ, h0]) (fun k hk => hbuf k hk) hnd
  · rw [if_neg h0]
    by_cases h1 : s.expected_seq < seq
    · rw [if_pos h1]
      refine ⟨hout, fun k hk => ?_, bufInsert_keys_nodup seq m _ hnd⟩
      show s.expected_seq < k
      rcases mem_bufInsert_keys k seq m _ hk with h | h
      · omega
      · exact hbuf k h
    · rw [if_neg h1]
      exact ⟨hout, hbuf, hnd⟩

theorem runRecv_inv {M : Type} (ps : List (Nat × M)) (s : RecvState M)
    (h : RecvInv s) : RecvInv (runRecv ps s) := by
  induction ps generalizing s with
  | nil => exact h
  | cons p ps ih =>
    rw [runRecv, List.foldl_cons]
    exact ih _ (handle_data_packet_inv s p.1 p.2 h)

/-- C2: the ARQ receiver delivers payloads in strictly increasing
sequence order, each sequence number exactly once — after any arrival
list the delivered sequence numbers are exactly 0..expected_seq-1 in
order — a packet beyond expected_seq is buffered without delivering, one
below expected_seq is dropped, and the concrete arrival order 0, 2, 1
is delivered as 0, 1, 2 exactly once each. -/
theorem receiver_in_order_delivery (M : Type) (ps : List (Nat × M)) :
    ((runRecv ps (initRecvState M)).delivered.map Prod.fst =
      List.range (runRecv ps (initRecvState M)).expected_seq) ∧
    (∀ (s : RecvState M) (seq : Nat) (m : M), s.expected_seq < seq →
      handle_data_packet s seq m =
        ⟨s.expected_seq, bufInsert seq m s.receive_buffer, s.delivered⟩) ∧
    (∀ (s : RecvState M) (seq : Nat) (m : M), seq < s.expected_seq →
      handle_data_packet s seq m = s) ∧
    (runRecv [(0, 100), (2, 102), (1, 101)] (initRecvState Nat)).delivered =
      [(0, 100), (1, 101), (2, 102)] := by
  refine ⟨(runRecv_inv ps (initRecvState M) ⟨rfl, by simp [initRecvState], by simp [initRecvState]⟩).1,
          fun s seq m h => ?_, fun s seq m h => ?_, by decide⟩
  · rw [handle_data_packet, if_neg (by omega), if_pos h]
  · rw [handle_data_packet, if_neg (by omega), if_neg (by omega)]

theorem receiver_in_order_delivery_witness :
    handle_data_packet (⟨3, [(5, 50)], [(0, 10), (1, 11), (2, 12)]⟩ : RecvState Nat) 4 40 =
      ⟨3, [(5, 50), (4, 40)], [(0, 10), (1, 11), (2, 12)]⟩ ∧
    handle_data_packet (⟨3, [(5, 50)], [(0, 10), (1, 11), (2, 12)]⟩ : RecvState Nat) 2 20 =
      ⟨3, [(5, 50)], [(0, 10), (1, 11), (2, 12)]⟩ := by
  constructor
  · rw [(receiver_in_order_delivery Nat []).2.1
      ⟨3, [(5, 50)], [(0, 10), (1, 11), (2, 12)]⟩ 4 40 (by decide)]
    rfl
  · exact (receiver_in_order_delivery Nat []).2.2.1
      ⟨3, [(5, 50)], [(0, 10), (1, 11), (2, 12)]⟩ 2 20 (by decide)

/-! ## SR ARQ sender, client side (src/client.py) -/

/-- The send window size, self.N = 6 on both client and server. -/
def N : Nat := 6

/-- RTT smoothing constant alpha = 0.125. -/
def alpha : ℚ := 1 / 8

/-- RTT smoothing constant beta = 0.25. -/
def beta : ℚ := 1 / 4

/-- The client's SR ARQ sender state (src/client.py __init__): window
base, next sequence number, the in-flight window, retransmission timers,
original-send timestamps, the RTT estimator (floats modelled as
rationals), counters, and the set of retransmitted sequence numbers. -/
structure ClientArq where
  base : Nat
  nextSeqNum : Nat
  window : List (Nat × Nat)
  timers : List (Nat × Nat)
  send_timestamp : List (Nat × Nat)
  estimatedRTT : ℚ
  devRTT : ℚ
  RTO : ℚ
  sent : Nat
  dropped : Nat
  retransmissions : Nat
  retransmitted_seqs : List Nat
  deriving DecidableEq, Repr

/-- The client's initial ARQ state: base 0, nextSeqNum 0, empty maps,
estimatedRTT 100, devRTT 50, RTO = 100 + 4 * 50. -/
def initClientArq : ClientArq :=
  ⟨0, 0, [], [], [], 100, 50, 100 + 4 * 50, 0, 0, 0, []⟩

/-- GameClient._sr_send (src/client.py lines 117-136): if
nextSeqNum < base + N, transmit packet pkt, record it in the window with
its timers, advance nextSeqNum and return the sequence number used;
otherwise increment the dropped counter and fail, touching nothing
else. -/
def client_sr_send (s : ClientArq) (pkt now : Nat) : ClientArq × Option Nat :=
  if s.nextSeqNum < s.base + N then
    (⟨s.base, s.nextSeqNum + 1, bufInsert s.nextSeqNum pkt s.window,
      bufInsert s.nextSeqNum now s.timers, bufInsert s.nextSeqNum now s.send_timestamp,
      s.estimatedRTT, s.devRTT, s.RTO,
      s.sent + 1, s.dropped, s.retransmissions, s.retransmitted_seqs⟩, some s.nextSeqNum)
  else
    (⟨s.base, s.nextSeqNum, s.window, s.timers, s.send_timestamp,
      s.estimatedRTT, s.devRTT, s.RTO,
      s.sent, s.dropped + 1, s.retransmissions, s.retransmitted_seqs⟩, none)

/-- GameClient._retransmit (src/client.py lines 138-154): resend the
windowed packet, restart its timer, count the retransmission and record
the sequence number in _retransmitted_seqs.  The original send
timestamp is left in place. -/
def client_retransmit (s : ClientArq) (seq now : Nat) : ClientArq :=
  match bufFind seq s.window with
  | some _ =>
    ⟨s.base, s.nextSeqNum, s.window, bufInsert seq now s.timers, s.send_timestamp,
     s.estimatedRTT, s.devRTT, s.RTO,
     s.sent + 1, s.dropped, s.retransmissions + 1, s.retransmitted_seqs ++ [seq]⟩
  | none => s

/-- The loop while base in window: base += 1, on fuel.  The loop visits
pairwise distinct keys, so fuel one past the window length always lets
it exit through the test, matching the Python loop on every input. -/
def skipPresentAux {α : Type} : Nat → Nat → List (Nat × α) → Nat
  | 0, b, _ => b
  | fuel + 1, b, w => if (bufFind b w).isSome then skipPresentAux fuel (b + 1) w else b

/-- The loop while base not in window and base < bound: base += 1.  Fuel
bound - base counts exactly the iterations the guard admits. -/
def skipAbsentAux {α : Type} : Nat → Nat → List (Nat × α) → Nat
  | 0, b, _ => b
  | fuel + 1, b, w => if (bufFind b w).isNone then skipAbsentAux fuel (b + 1) w else b

/-- GameClient._handle_ack (src/client.py lines 298-327): if the acked
seq is in the window, first update the RTT estimator from
sample = recv_ms - send_timestamp[seq] whenever seq still has a send
timestamp, then delete seq from window, timers and send timestamps;
in every case then run the two base-sliding loops:
while base in window: base += 1, followed by
while base not in window and base < nextSeqNum: base += 1. -/
def client_handle_ack (s : ClientArq) (seq recv_ms : Nat) : ClientArq :=
  let s1 :=
    match bufFind seq s.window with
    | some _ =>
      let s' : ClientArq :=
        match bufFind seq s.send_timestamp with
        | some ts =>
          let sampleRTT : ℚ := (recv_ms : ℚ) - (ts : ℚ)
          let est := (1 - alpha) * s.estimatedRTT + alpha * sampleRTT
          let dev := (1 - beta) * s.devRTT + beta * |sampleRTT - est|
          ⟨s.base, s.nextSeqNum, s.window, s.timers, s.send_timestamp,
           est, dev, est + 4 * dev,
           s.sent, s.dropped, s.retransmissions, s.retransmitted_seqs⟩
        | none => s
      (⟨s'.base, s'.nextSeqNum, bufErase seq s'.window, bufErase seq s'.timers,
        bufErase seq s'.send_timestamp, s'.estimatedRTT, s'.devRTT, s'.RTO,
        s'.sent, s'.dropped, s'.retransmissions, s'.retransmitted_seqs⟩ : ClientArq)
    | none => s
  let b1 := skipPresentAux (s1.window.length + 1) s1.base s1.window
  let b2 := skipAbsentAux (s1.nextSeqNum - b1) b1 s1.window
  ⟨b2, s1.nextSeqNum, s1.window, s1.timers, s1.send_timestamp,
   s1.estimatedRTT, s1.devRTT, s1.RTO,
   s1.sent, s1.dropped, s1.retransmissions, s1.retransmitted_seqs⟩

/-! ## SR ARQ sender, server side (src/server.py) -/

/-- The server's fixed retransmission timeout, self.RTO = 200 ms. -/
def server_RTO : Nat := 200

/-- One per-peer sender of the server (client_windows / client_timers /
client_base / client_next_seq entries plus the shared counters). -/
structure ServerSender where
  base : Nat
  next_seq : Nat
  window : List (Nat × Nat)
  timers : List (Nat × Nat)
  sent : Nat
  dropped : Nat
  deriving DecidableEq, Repr

/-- min(window.keys()) if window else dflt. -/
def minKey {α : Type} (w : List (Nat × α)) (dflt : Nat) : Nat :=
  match w.map Prod.fst with
  | [] => dflt
  | k :: ks => ks.foldl Nat.min k

/-- GameServer._sr_send (src/server.py lines 146-234), per peer, on
fuel: while nextSeqNum >= base + N the send is refused — except that
when the window holds exactly N packets and the oldest one's timer is
older than 3 * RTO, the window is force-slid past the oldest sequence
(removing it from window and timers) and the send retried; each force
slide removes one window entry, so fuel one past the window length
always suffices.  Otherwise the packet is transmitted, recorded in
window and timers, and nextSeqNum advanced. -/
def server_sr_send_aux : Nat → ServerSender → Nat → Nat → ServerSender × Bool
  | 0, s, _, _ => (s, false)
  | fuel + 1, s, pkt, now =>
    if s.base + N ≤ s.next_seq then
      let oldest_seq := minKey s.window s.base
      let oldest_time := (bufFind oldest_seq s.timers).getD 0
      if s.window.length = N ∧ (3 * server_RTO : Int) < (now : Int) - (oldest_time : Int) then
        server_sr_send_aux fuel
          ⟨oldest_seq + 1, s.next_seq, bufErase oldest_seq s.window,
           bufErase oldest_seq s.timers, s.sent, s.dropped⟩ pkt now
      else
        (⟨s.base, s.next_seq, s.window, s.timers, s.sent, s.dropped + 1⟩, false)
    else
      (⟨s.base, s.next_seq + 1, bufInsert s.next_seq pkt s.window,
        bufInsert s.next_seq now s.timers, s.sent + 1, s.dropped⟩, true)

/-- The server's per-peer send, with enough fuel for every force slide. -/
def server_sr_send (s : ServerSender) (pkt now : Nat) : ServerSender × Bool :=
  server_sr_send_aux (s.window.length + 1) s pkt now

/-- GameServer._handle_ack (src/server.py lines 602-636): an ACK not in
the window is ignored; otherwise the acked packet and its timer are
removed and base slides forward while absent from the window and below
next_seq. -/
def server_handle_ack (s : ServerSender) (ack_num : Nat) : ServerSender :=
  match bufFind ack_num s.window with
  | some _ =>
    let w := bufErase ack_num s.window
    let t := bufErase ack_num s.timers
    let nb := skipAbsentAux (s.next_seq - s.base) s.base w
    ⟨nb, s.next_seq, w, t, s.sent, s.dropped⟩
  | none => s

/-- A server sender with a full window of six packets all sent at time
0, seen at time 1000: the oldest timer is more than 3 * RTO stale. -/
def c4ServerFullStale : ServerSender :=
  ⟨0, 6, [(0, 10), (1, 11), (2, 12), (3, 13), (4, 14), (5, 15)],
   [(0, 0), (1, 0), (2, 0), (3, 0), (4, 0), (5, 0)], 6, 0⟩

/-- C4 counterexample: the claim says a send on a full window is always
rejected with the dropped counter incremented and the sender state
untouched, for the server's per-peer sender too; but with the window
full and the oldest timer stale the server force-slides the window and
the send succeeds — it transmits, leaves dropped unchanged and moves
base. -/
theorem send_window_full_counterexample :
    c4ServerFullStale.base + N ≤ c4ServerFullStale.next_seq ∧
    (server_sr_send c4ServerFullStale 99 1000).2 = true ∧
    (server_sr_send c4ServerFullStale 99 1000).1.dropped = c4ServerFullStale.dropped ∧
    (server_sr_send c4ServerFullStale 99 1000).1.base = 1 := by
  refine ⟨by decide, rfl, rfl, rfl⟩

/-- C4 (amended): a send on a full window (nextSeqNum >= base + N) fails
immediately with only the dropped counter incremented — unconditionally
so for the client's sender; for the server's per-peer sender whenever
the force-slide escape does not apply, i.e. unless the window holds
exactly N packets and its oldest timer is more than 3 * RTO older than
now. -/
theorem send_window_full_fail_fast :
    (∀ (s : ClientArq) (pkt now : Nat), s.base + N ≤ s.nextSeqNum →
      client_sr_send s pkt now =
        (⟨s.base, s.nextSeqNum, s.window, s.timers, s.send_timestamp,
          s.estimatedRTT, s.devRTT, s.RTO,
          s.sent, s.dropped + 1, s.retransmissions, s.retransmitted_seqs⟩, none)) ∧
    (∀ (s : ServerSender) (pkt now : Nat), s.base + N ≤ s.next_seq →
      ¬ (s.window.length = N ∧
          (3 * server_RTO : Int) <
            (now : Int) - ((bufFind (minKey s.window s.base) s.timers).getD 0 : Int)) →
      server_sr_send s pkt now =
        (⟨s.base, s.next_seq, s.window, s.timers, s.sent, s.dropped + 1⟩, false)) := by
  constructor
  · intro s pkt now h
    rw [client_sr_send, if_neg (by omega)]
  · intro s pkt now h hcond
    rw [server_sr_send, server_sr_send_aux]
    simp only []
    rw [if_pos h, if_neg hcond]

/-- A client sender and a server sender with full windows of fresh
(recently timed) packets. -/
def c4ClientFull : ClientArq :=
  ⟨0, 6, [(0, 1), (1, 2), (2, 3), (3, 4), (4, 5), (5, 6)],
   [(0, 0), (1, 0), (2, 0), (3, 0), (4, 0), (5, 0)],
   [(0, 0), (1, 0), (2, 0), (3, 0), (4, 0), (5, 0)], 100, 50, 300, 6, 0, 0, []⟩

def c4ServerFullFresh : ServerSender :=
  ⟨0, 6, [(0, 10), (1, 11), (2, 12), (3, 13), (4, 14), (5, 15)],
   [(0, 900), (1, 900), (2, 900), (3, 900), (4, 900), (5, 900)], 6, 0⟩

theorem send_window_full_fail_fast_witness :
    client_sr_send c4ClientFull 7 1234 =
      (⟨c4ClientFull.base, c4ClientFull.nextSeqNum, c4ClientFull.window,
        c4ClientFull.timers, c4ClientFull.send_timestamp,
        c4ClientFull.estimatedRTT, c4ClientFull.devRTT, c4ClientFull.RTO,
        c4ClientFull.sent, c4ClientFull.dropped + 1,
        c4ClientFull.retransmissions, c4ClientFull.retransmitted_seqs⟩, none) ∧
    server_sr_send c4ServerFullFresh 99 1000 =
      (⟨c4ServerFullFresh.base, c4ServerFullFresh.next_seq, c4ServerFullFresh.window,
        c4ServerFullFresh.timers, c4ServerFullFresh.sent,
        c4ServerFullFresh.dropped + 1⟩, false) := by
  constructor
  · exact send_window_full_fail_fast.1 c4ClientFull 7 1234 (by decide)
  · exact send_window_full_fail_fast.2 c4ServerFullFresh 99 1000 (by decide) (by decide)

/-- A client sender with an outstanding, un-acknowledged packet 0. -/
def c5ClientArq : ClientArq :=
  ⟨0, 1, [(0, 9)], [(0, 0)], [(0, 0)], 100, 50, 300, 1, 0, 0, []⟩

/-- C5 (code bug): the client's _handle_ack runs
"while base in window: base += 1" before the absent-sliding loop, so an
ACK for a sequence that is NOT in the window still moves base past the
still-unacknowledged packet 0: base changes from 0 to 1 although the
window still holds sequence 0, contradicting both the claimed
no-change-on-unknown-ACK behaviour and base = smallest windowed
sequence. -/
theorem client_ack_slides_past_unacked :
    bufFind 1 c5ClientArq.window = none ∧
    c5ClientArq.base = 0 ∧
    (client_handle_ack c5ClientArq 1 50).base = 1 ∧
    (client_handle_ack c5ClientArq 1 50).window = [(0, 9)] ∧
    minKey (client_handle_ack c5ClientArq 1 50).window 0 = 0 :=
  ⟨rfl, rfl, rfl, rfl, rfl⟩

/-- The Karn's-rule scenario: packet 0 sent at t = 0, retransmitted at
t = 400, acknowledged at t = 500. -/
def c6AfterSend : ClientArq := (client_sr_send initClientArq 42 0).1

def c6AfterRetransmit : ClientArq := client_retransmit c6AfterSend 0 400

def c6AfterAck : ClientArq := client_handle_ack c6AfterRetransmit 0 500

/-- C6 (code bug): Karn's rule is not enforced — _handle_ack samples the
RTT whenever the acked seq still has a send timestamp, and _retransmit
never clears that timestamp (it only records the seq in the unused
_retransmitted_seqs set), so an ACK arriving after a retransmission
still updates the estimator: estimatedRTT moves from 100 to 150 and
devRTT from 50 to 125. -/
theorem rtt_updated_despite_retransmit :
    c6AfterRetransmit.retransmitted_seqs = [0] ∧
    c6AfterRetransmit.estimatedRTT = 100 ∧
    c6AfterAck.estimatedRTT = 150 ∧
    c6AfterAck.devRTT = 125 := by
  refine ⟨rfl, rfl, by norm_num [c6AfterAck, c6AfterRetransmit, c6AfterSend,
    client_handle_ack, client_retransmit, client_sr_send, initClientArq,
    bufFind, bufInsert, bufErase, alpha, beta, N], by norm_num [c6AfterAck,
    c6AfterRetransmit, c6AfterSend, client_handle_ack, client_retransmit,
    client_sr_send, initClientArq, bufFind, bufInsert, bufErase, alpha, beta, N]⟩

end GridClash
